import Mathlib

/-!
Verification development for the waveform acquisition and decoding engine of
the PYDHO800 oscilloscope driver (src/pydho800/pydho800.py).

Modelling conventions (shallow embedding):
* Python strings are modelled as `List Char`; Python `str.split` on a one
  character separator is `splitComma` below; `len` is `List.length`.
* Python floating point values originating from textual replies are decimal
  or scientific literals; they are modelled by their exact decimal value,
  represented canonically as a pair `(m, e) : ℤ × ℤ` denoting `m * 10 ^ e`
  (the function `qOf` gives the rational value).  The builtin `float(s)`
  conversion is modelled by `parseFloat?` on the plain ASCII literal grammar
  (optional sign, digits with an optional decimal point, optional exponent
  part); `int(s)` is modelled by `parseInt?`.  No floating point rounding is
  modelled; all claims here are value-level statements that are exact at
  this granularity.
* Code that raises exceptions is modelled with explicit error sum types; the
  distinct Python exception classes relevant to the claims are kept apart
  (ProtocolViolation vs ValueError vs TypeError vs NameError vs IndexError).
* The unbounded `while` loop of the sample decoder is modelled with explicit
  fuel (`runLoop`); every terminating execution of the Python loop makes at
  most `len(wavedata) + 1` iterations (each non-raising iteration strictly
  decreases `len(wavedata) - i`), so `decodeTokens` supplies exactly that
  much fuel and `outOfFuel` marks the executions of the Python code that
  never terminate.
-/

namespace PYDHO800

/-- Decimal digit test used by the numeric literal grammar. -/
def isDig (c : Char) : Bool := ('0' ≤ c) && (c ≤ '9')

/-- Value of a list of decimal digits, most significant first. -/
def natOfDigits (l : List Char) : ℕ :=
  l.foldl (fun a c => 10 * a + (c.toNat - 48)) 0

/-- Rational value of an exact decimal pair: `qOf (m, e) = m * 10 ^ e`. -/
def qOf (p : ℤ × ℤ) : ℚ := (p.1 : ℚ) * 10 ^ p.2

/-- Consume one optional leading sign; returns (isNegative, rest). -/
def parseSign (l : List Char) : Bool × List Char :=
  match l with
  | [] => (false, [])
  | c :: r => if c = '+' then (false, r) else if c = '-' then (true, r) else (false, l)

/-- Optional exponent part of a float literal: on input `m` (signed integer
mantissa read so far) and `fLen` (number of fractional digits), returns the
decimal pair for the whole literal, or `none` when the remaining characters
are not a well-formed exponent part. -/
def applyExp (m : ℤ) (fLen : ℕ) (rest : List Char) : Option (ℤ × ℤ) :=
  match rest with
  | [] => some (m, -(fLen : ℤ))
  | c :: r =>
    if c = 'e' ∨ c = 'E' then
      let p := parseSign r
      let ed := p.2.takeWhile isDig
      let r2 := p.2.dropWhile isDig
      if ed.isEmpty ∨ ¬ r2.isEmpty then none
      else some (m, (if p.1 then -(natOfDigits ed : ℤ) else (natOfDigits ed : ℤ)) - (fLen : ℤ))
    else none

/-- Model of the Python builtin `float(s)` on plain ASCII decimal and
scientific form literals: optional sign, integer digits, optional
fractional part, optional exponent; at least one digit in the mantissa.
The result is the exact decimal pair of the literal.  Any other input makes
`float` raise `ValueError`, modelled as `none`. -/
def parseFloat? (l : List Char) : Option (ℤ × ℤ) :=
  let p := parseSign l
  let ip := p.2.takeWhile isDig
  let l2 := p.2.dropWhile isDig
  let go : List Char → List Char → Option (ℤ × ℤ) := fun fp l4 =>
    if ip.isEmpty ∧ fp.isEmpty then none
    else
      let mAbs : ℕ := natOfDigits (ip ++ fp)
      applyExp (if p.1 then -(mAbs : ℤ) else (mAbs : ℤ)) fp.length l4
  match l2 with
  | [] => if ip.isEmpty then none else go [] []
  | c :: l3 =>
    if c = '.' then go (l3.takeWhile isDig) (l3.dropWhile isDig)
    else if ip.isEmpty then none else go [] l2

/-- Model of the Python builtin `int(s)`: optional sign followed by decimal
digits only; anything else raises `ValueError`, modelled as `none`. -/
def parseInt? (l : List Char) : Option ℤ :=
  let p := parseSign l
  if p.2.isEmpty ∨ ¬ (p.2.all isDig) then none
  else some (if p.1 then -(natOfDigits p.2 : ℤ) else (natOfDigits p.2 : ℤ))

/-- Model of Python `s.split(",")` (non-empty separator, keeps empty parts). -/
def splitComma : List Char → List (List Char)
  | [] => [[]]
  | c :: r =>
    if c = ',' then [] :: splitComma r
    else
      match splitComma r with
      | h :: t => (c :: h) :: t
      | [] => [[c]]

/-- Model of Python `s.split('e', 1)`: `some (before, after)` when the
character `e` occurs (split at its first occurrence); `none` when it does
not, in which case the Python code `two_fold[1]` raises `IndexError`. -/
def splitFirstE : List Char → Option (List Char × List Char)
  | [] => none
  | c :: r =>
    if c = 'e' then some ([], r)
    else (splitFirstE r).map (fun q => (c :: q.1, q.2))

/-- One entry of the Python `wavedata` list during decoding: the list starts
as the raw string tokens of the reply and entries are replaced in place by
floats (exact decimal pairs here) as they are parsed. -/
inductive Tok
  | raw (s : List Char)
  | num (v : ℤ × ℤ)
deriving DecidableEq, Repr

/-- Rational value of a decoded sample entry (only `num` entries remain in
any successfully decoded list). -/
def Tok.val : Tok → ℚ
  | .raw _ => 0
  | .num v => qOf v

/-- State of the `while` decode loop of `_query_waveform`
(pydho800.py lines 521-542): the mutating `wavedata` list, the index `i`,
and whether the local names `first_num` / `second_num` have been bound yet
(they are assigned, together, only in the repair branch; the exception
message references them, so raising with them unbound produces
`UnboundLocalError` instead). -/
structure LoopState where
  wavedata : List Tok
  i : ℕ
  nBound : Bool
deriving DecidableEq, Repr

/-- Exception raised out of the decode loop.  `protocolViolation` is the
`CommunicationError_ProtocolViolation` of the source; `indexError` and
`nameError` are the Python errors raised while the f-string of that
exception message evaluates `wavedata[i]`, `first_num`, `second_num`. -/
inductive DecodeErr
  | protocolViolation
  | indexError
  | nameError
deriving DecidableEq, Repr

/-- Error actually raised when the `raise` statement at lines 540-542 runs:
the f-string of its message first evaluates `wavedata[i]` (IndexError when
`i` is out of range), then `first_num` and `second_num`
(UnboundLocalError, modelled `nameError`, when the repair branch has never
executed and the names are unbound). -/
def msgErr (s : LoopState) : DecodeErr :=
  if s.wavedata.length ≤ s.i then .indexError
  else if s.nBound then .protocolViolation
  else .nameError

/-- Result of one iteration of the decode loop body. -/
inductive StepResult
  | done (l : List Tok)
  | cont (s : LoopState)
  | err (e : DecodeErr)
deriving DecidableEq, Repr

/-- The `except:` handler (lines 538-542): tolerate the failure only when
`i == len(wavedata) - 1` (Python arithmetic, hence the `Int` cast), in
which case execution falls through to the next loop iteration with the
state otherwise unchanged; in every other case raise. -/
def exceptPath (s : LoopState) : StepResult :=
  if (s.i : ℤ) ≠ (s.wavedata.length : ℤ) - 1 then .err (msgErr s) else .cont s

/-- One iteration of the decode loop (lines 523-542), faithful to the
evaluation order of the Python body, including the incomplete mutation done
by `wavedata.pop(i)` before a possibly failing `float(...)` inside the
repair branch.  A `num` entry at position `i` means `len(wavedata[i])`
raises `TypeError`, taking the except path. -/
def step (s : LoopState) : StepResult :=
  match s.wavedata[s.i]? with
  | none => .done s.wavedata
  | some (.num _) => exceptPath s
  | some (.raw t) =>
    if 14 < t.length then
      match splitFirstE t with
      | none => exceptPath s
      | some (a, b) =>
        let s1 : LoopState := { s with nBound := true }
        let l1 := s.wavedata.eraseIdx s.i
        match parseFloat? (a ++ 'e' :: b.take 3) with
        | none => exceptPath { s1 with wavedata := l1 }
        | some f1 =>
          let l2 := l1.insertIdx s.i (.num f1)
          match parseFloat? (b.drop 3) with
          | none => exceptPath { s1 with wavedata := l2 }
          | some f2 =>
            .cont { s1 with wavedata := l2.insertIdx (s.i + 1) (.num f2), i := s.i + 2 }
    else
      match parseFloat? t with
      | none => exceptPath s
      | some f => .cont { s with wavedata := s.wavedata.set s.i (.num f), i := s.i + 1 }

/-- Outcome of running the decode loop with a given amount of fuel. -/
inductive DecodeOutcome
  | ok (l : List Tok)
  | err (e : DecodeErr)
  | outOfFuel
deriving DecidableEq, Repr

/-- Run the decode loop for at most the given number of iterations. -/
def runLoop : ℕ → LoopState → DecodeOutcome
  | 0, _ => .outOfFuel
  | n + 1, s =>
    match step s with
    | .done l => .ok l
    | .err e => .err e
    | .cont s2 => runLoop n s2

/-- Decode a token list as the loop of `_query_waveform` does.  Every
terminating run of the Python loop makes at most `length + 1` iterations
(each non-raising iteration strictly decreases `len(wavedata) - i`), so
this fuel is exact: `outOfFuel` is returned precisely on the inputs where
the Python loop never terminates. -/
def decodeTokens (toks : List (List Char)) : DecodeOutcome :=
  runLoop (toks.length + 1) { wavedata := toks.map Tok.raw, i := 0, nBound := false }

/-- Decode a raw sample stream reply: `respdata.split(",")` then the loop. -/
def decodeStream (s : List Char) : DecodeOutcome := decodeTokens (splitComma s)

/-- Sample values of a decode outcome, when decoding succeeded. -/
def DecodeOutcome.valList : DecodeOutcome → Option (List ℚ)
  | .ok l => some (l.map Tok.val)
  | _ => none

/-- Decoded preamble fields (pydho800.py lines 502-513): the two checked
tags, two integer counters and six scaling values. -/
structure Preamble where
  format : ℤ
  typ : ℤ
  points : ℤ
  avgcount : ℤ
  xinc : ℚ
  xorigin : ℚ
  xref : ℚ
  yinc : ℚ
  yorigin : ℚ
  yref : ℚ
deriving DecidableEq, Repr

/-- Error raised out of the preamble parse: `protocolViolation` is the
explicitly raised `CommunicationError_ProtocolViolation`; `valueError` is
the uncaught `ValueError` that `int(...)` or `float(...)` raises on an
unparseable field (the source wraps none of these calls in try/except). -/
inductive PreErr
  | protocolViolation
  | valueError
deriving DecidableEq, Repr

/-- Parse of the ten preamble fields once the field count check passed
(lines 502-513): `int(pre[0])` must be 2, `int(pre[1])` must be 0 or 2,
then points and average count parse as int and the six scaling values as
float, in source order. -/
def parsePre10 (p0 p1 p2 p3 p4 p5 p6 p7 p8 p9 : List Char) : Except PreErr Preamble :=
  match parseInt? p0 with
  | none => .error .valueError
  | some f0 =>
    if f0 ≠ 2 then .error .protocolViolation
    else
      match parseInt? p1 with
      | none => .error .valueError
      | some f1 =>
        if f1 ≠ 0 ∧ f1 ≠ 2 then .error .protocolViolation
        else
          match parseInt? p2 with
          | none => .error .valueError
          | some points =>
            match parseInt? p3 with
            | none => .error .valueError
            | some avgcount =>
              match parseFloat? p4 with
              | none => .error .valueError
              | some xinc =>
                match parseFloat? p5 with
                | none => .error .valueError
                | some xorigin =>
                  match parseFloat? p6 with
                  | none => .error .valueError
                  | some xref =>
                    match parseFloat? p7 with
                    | none => .error .valueError
                    | some yinc =>
                      match parseFloat? p8 with
                      | none => .error .valueError
                      | some yorigin =>
                        match parseFloat? p9 with
                        | none => .error .valueError
                        | some yref =>
                          .ok ⟨f0, f1, points, avgcount, qOf xinc, qOf xorigin,
                            qOf xref, qOf yinc, qOf yorigin, qOf yref⟩

/-- Preamble decoding (lines 497-513): split the reply on the comma,
require exactly 10 fields (anything else is a protocol violation), then
parse the fields in order via `parsePre10`. -/
def parsePreamble (s : List Char) : Except PreErr Preamble :=
  match splitComma s with
  | [p0, p1, p2, p3, p4, p5, p6, p7, p8, p9] => parsePre10 p0 p1 p2 p3 p4 p5 p6 p7 p8 p9
  | _ => .error .protocolViolation

/-- The fixed ascending list of setable base scales of `_set_channel_scale`
(line 377), as exact decimal rationals. -/
def setableScales : List ℚ :=
  [1/2000, 1/1000, 1/500, 1/200, 1/100, 1/50, 1/20, 1/10, 1/5, 1/2, 1, 2, 5, 10]

/-- The selection fold of `_set_channel_scale` (lines 384-387): starting
from `match_scale = 0`, overwrite with every setable step strictly less
than the normalized scale; on the ascending list this leaves the largest
step strictly below `n`, or 0 when there is none. -/
def pickScale (n : ℚ) : ℚ :=
  setableScales.foldl (fun acc s => if s < n then s else acc) 0

/-- Scale resolution of `_set_channel_scale` (lines 371-392) as a function
of the requested scale and the probe ratio the instrument reported: the
requested scale is divided by the probe ratio, the fold picks the step,
and `match_scale not in setableScales` (i.e. the fold still holds 0)
raises the range `ValueError`, modelled as `none`; otherwise the selected
step is issued to the instrument, modelled as `some step`. -/
def resolveScale (scale ratio : ℚ) : Option ℚ :=
  let n := scale / ratio
  let m := pickScale n
  if m ∈ setableScales then some m else none

/-- The out of range sentinel of the measurement code (comment at line
624): the scope replies 9.9e+37 when the measurement is out of range. -/
def sentinel : ℚ := 99 * 10 ^ 36

/-- The `while` condition of the stability gated measurement loop at line
627: the pair of readings is rejected (and two fresh readings are taken)
when the first reading is at or above the sentinel, or the magnitudes of
the two readings differ by more than the one sided 10 percent tolerance.
Only `resp1` is compared against the sentinel. -/
def rejectCond (r1 r2 : ℚ) : Prop :=
  sentinel ≤ r1 ∨ |r2| * (11/10) < |r1| ∨ |r1| < |r2| * (9/10)

instance (r1 r2 : ℚ) : Decidable (rejectCond r1 r2) := by
  unfold rejectCond; infer_instance

/-- The stability gated loop of `get_channel_measurement` (lines 625-630),
parameterized by the successive pairs of readings the instrument returns
(each loop iteration issues the scalar query twice; replies are modelled
as the already parsed rational values of `float(...)`).  The loop state
starts at `resp1 = 0`, `resp2 = 1`, which the condition always rejects, so
at least one pair is always consumed.  `none` models the case where the
supplied reply list is exhausted while the loop is still polling (the
Python loop would keep querying forever). -/
def stabilityGo : ℚ → ℚ → List (ℚ × ℚ) → Option ℚ
  | r1, r2, ps =>
    if rejectCond r1 r2 then
      match ps with
      | [] => none
      | (a, b) :: rest => stabilityGo a b rest
    else some ((r1 + r2) / 2)

/-- Run the stability gated loop from its initial state. -/
def stabilityRun (ps : List (ℚ × ℚ)) : Option ℚ := stabilityGo 0 1 ps

/-- One transport operation issued by the driver. -/
inductive Op
  | cmd (s : String)
  | qry (s : String)
deriving DecidableEq, Repr

/-- The run modes of the labdevices base class that `_get_run_mode` can
report (STOP, or RUN which covers the RUN / AUTO / WAIT replies). -/
inductive RunMode
  | stop
  | run
deriving DecidableEq, Repr

/-- Model of `_get_run_mode` (lines 244-252) as a function of the reply to
the `:TRIG:STAT?` query: STOP maps to stop, RUN / AUTO / WAIT map to run,
and any other reply (or an absent one) falls off the end of the Python
function, returning `None`. -/
def getRunMode (resp : Option (List Char)) : Option RunMode :=
  match resp with
  | some r =>
    if r = "STOP".toList then some .stop
    else if r = "RUN".toList ∨ r = "AUTO".toList then some .run
    else if r = "WAIT".toList then some .run
    else none
  | none => none

/-- Replies the instrument gives during one single channel capture. -/
structure Env where
  runModeReply : Option (List Char)
  preReply : Option (List Char)
  dataReply : Option (List Char)

/-- Driver configuration fields used by `_query_waveform`. -/
structure Cfg where
  rawMode : Bool
  samplePoints : ℤ
  useNumpy : Bool

/-- Failures of a single channel `_query_waveform` call. -/
inductive QErr
  | valueError
  | protocolViolation
  | preValueError
  | dataErr (e : DecodeErr)
  | divergence
deriving DecidableEq, Repr

/-- A successfully captured single channel trace: the generated time axis
and the decoded sample entries. -/
structure WaveResult where
  x : List ℚ
  y : List Tok
deriving DecidableEq, Repr

/-- Model of `numpy.linspace(start, stop, num)` over exact rationals:
`num` evenly spaced points from `start` to `stop`, endpoint included
(`num - 1` intervals). -/
def linspace (start stop : ℚ) (num : ℕ) : List ℚ :=
  if num = 0 then []
  else if num = 1 then [start]
  else (List.range num).map (fun i : ℕ => start + (i : ℚ) * ((stop - start) / ((num - 1 : ℕ) : ℚ)))

/-- The repeated addition x axis loop of `_query_waveform`
(lines 551-556): append the running time value, then add the increment. -/
def xdataLoopAux (cur inc : ℚ) : ℕ → List ℚ
  | 0 => []
  | n + 1 => cur :: xdataLoopAux (cur + inc) inc n

/-- The non numpy x axis: `dpoints` values starting at `xorigin`, advancing
by `xinc` by repeated addition. -/
def xdataLoop (xorigin xinc : ℚ) (n : ℕ) : List ℚ := xdataLoopAux xorigin xinc n

/-- The transport operations issued by a single channel `_query_waveform`
call (lines 479-492), in order: nothing when the channel index is out of
range; only the run state query when raw mode is requested and the
precondition fails; otherwise the mode and point count commands (raw or
normal variants), then source channel, format, preamble query and data
query.  All of these are issued before any reply is examined. -/
def queryWaveformOps (cfg : Cfg) (env : Env) (channel : ℤ) : List Op :=
  if channel < 0 ∨ 4 ≤ channel then []
  else if cfg.rawMode ∧ getRunMode env.runModeReply ≠ some RunMode.stop then
    [Op.qry ":TRIG:STAT?"]
  else
    (if cfg.rawMode then
      [Op.qry ":TRIG:STAT?", Op.cmd ":WAV:MODE RAW", Op.cmd ":WAV:POIN RAW"]
    else
      [Op.cmd ":WAV:MODE NORM", Op.cmd (":WAV:POIN " ++ toString cfg.samplePoints ++ " NORM")])
    ++ [Op.cmd (":WAV:SOUR CHAN" ++ toString (channel + 1)), Op.cmd ":WAV:FORM ASCII",
        Op.qry ":WAV:PRE?", Op.qry ":WAV:DATA?"]

/-- The result of a single channel `_query_waveform` call (lines 479-568):
channel range check, raw mode precondition (run mode must be STOP), absent
replies, preamble parse, sample stream decode, then the x axis build (the
numpy and plain paths of lines 545-557) and the trace. -/
def queryWaveformRes (cfg : Cfg) (env : Env) (channel : ℤ) : Except QErr WaveResult :=
  if channel < 0 ∨ 4 ≤ channel then .error .valueError
  else if cfg.rawMode ∧ getRunMode env.runModeReply ≠ some RunMode.stop then
    .error .protocolViolation
  else
    match env.preReply, env.dataReply with
    | none, _ => .error .protocolViolation
    | some _, none => .error .protocolViolation
    | some pre, some data =>
      match parsePreamble pre with
      | .error .protocolViolation => .error .protocolViolation
      | .error .valueError => .error .preValueError
      | .ok pm =>
        match decodeTokens (splitComma data) with
        | .err e => .error (.dataErr e)
        | .outOfFuel => .error .divergence
        | .ok wd =>
          .ok { x := if cfg.useNumpy then
                  linspace pm.xorigin (pm.xorigin + (wd.length : ℚ) * pm.xinc) wd.length
                else xdataLoop pm.xorigin pm.xinc wd.length,
                y := wd }

/-- A single channel `_query_waveform` call: the operations it issues and
the outcome. -/
def queryWaveform (cfg : Cfg) (env : Env) (channel : ℤ) : List Op × Except QErr WaveResult :=
  (queryWaveformOps cfg env channel, queryWaveformRes cfg env channel)

/-- The merged result of the multi channel branch of `_query_waveform`
(lines 465-477): the shared x axis of the first channel captured and the
per channel sample lists under their `y{ch}` keys, in insertion order. -/
structure MultiResult where
  x : List ℚ
  ys : List (ℤ × List Tok)
deriving DecidableEq, Repr

/-- The per channel loop of the multi channel branch (lines 466-477):
`resp` starts as `None`; each channel is captured in turn (errors
propagate); the first capture creates the dictionary with the shared x
axis, later captures only add their y entry. -/
def multiGo (cfg : Cfg) (envs : ℤ → Env) :
    Option MultiResult → List ℤ → Except QErr (Option MultiResult)
  | acc, [] => .ok acc
  | acc, ch :: rest =>
    match (queryWaveform cfg (envs ch) ch).2 with
    | .error e => .error e
    | .ok r =>
      match acc with
      | none => multiGo cfg envs (some { x := r.x, ys := [(ch, r.y)] }) rest
      | some m => multiGo cfg envs (some { x := m.x, ys := m.ys ++ [(ch, r.y)] }) rest

/-- The multi channel branch of `_query_waveform` on a list (or tuple) of
channels: run the loop starting from `resp = None` and return `resp`. -/
def queryWaveformMulti (cfg : Cfg) (envs : ℤ → Env) (channels : List ℤ) :
    Except QErr (Option MultiResult) :=
  multiGo cfg envs none channels

/-- The measurement type table of `get_channel_measurement` (lines
596-607). -/
def measTypes : List String :=
  ["VPP", "RRPH", "FFPH", "VMIN", "VMAX", "VRMS", "VAVG", "OVER", "FREQ", "PER"]

/-- Failures of `get_channel_measurement`.  `typeErrorNoneCmp` is the
`TypeError` Python raises when `channel < 0` compares `None` with an
integer; the `valueError` constructors are the explicit `raise ValueError`
statements in source order; `protocolViolation` is the final reply check. -/
inductive MeasErr
  | typeErrorNoneCmp
  | valueErrorChannel
  | valueErrorType
  | valueErrorMissingChannel
  | valueErrorMissingRef
  | valueErrorRefChannel
  | protocolViolation
  | noMoreReplies
deriving DecidableEq, Repr

/-- A measurement result: the phase branch returns the averaged float, the
plain branch returns the reply string unconverted. -/
inductive MeasOut
  | num (q : ℚ)
  | raw (s : List Char)
deriving DecidableEq, Repr

/-- Replies the instrument gives during one measurement call. -/
structure MeasEnv where
  pairReplies : List (ℚ × ℚ)
  singleReply : Option (List Char)

/-- Model of `get_channel_measurement` (lines 595-636).  The `channel`
and `refchannel` parameters default to `None` in Python, modelled as
`Option ℤ`.  The first statement after the type table is
`if (channel < 0) or (channel > 3)`, which raises `TypeError` when
`channel` is `None`; the explicit `None` check for `channel` only comes
two checks later (line 614), guarded inside the branch where `channel`
compared successfully, i.e. is an integer. -/
def get_channel_measurement (ty : String) (channel refchannel : Option ℤ)
    (env : MeasEnv) : Except MeasErr MeasOut :=
  match channel with
  | none => .error .typeErrorNoneCmp
  | some ch =>
    if ch < 0 ∨ 3 < ch then .error .valueErrorChannel
    else if ty ∉ measTypes then .error .valueErrorType
    else if channel = none then .error .valueErrorMissingChannel
    else if ty = "RRPH" ∨ ty = "FFPH" then
      match refchannel with
      | none => .error .valueErrorMissingRef
      | some rc =>
        if rc < 0 ∨ 3 < rc then .error .valueErrorRefChannel
        else
          match stabilityRun env.pairReplies with
          | some v => .ok (.num v)
          | none => .error .noMoreReplies
    else
      match env.singleReply with
      | some r => .ok (.raw r)
      | none => .error .protocolViolation

/-- A clean token: parses directly as a float and does not exceed the
14 character repair threshold. -/
def cleanTok (t : List Char) : Prop := t.length ≤ 14 ∧ (parseFloat? t).isSome

instance (t : List Char) : Decidable (cleanTok t) := by
  unfold cleanTok; infer_instance

/-- The entry a clean token becomes after its in place conversion. -/
def convTok (t : List Char) : Tok := .num ((parseFloat? t).getD (0, 0))

end PYDHO800

namespace PYDHO800

/- Helper lemmas about list surgery at the working index. -/

theorem getElem?_append_len (d : List Tok) (x : Tok) (m : List Tok) :
    (d ++ x :: m)[d.length]? = some x := by
  induction d with
  | nil => simp
  | cons a d ih => simpa using ih

theorem set_append_len (d : List Tok) (x y : Tok) (m : List Tok) :
    (d ++ x :: m).set d.length y = d ++ y :: m := by
  induction d with
  | nil => rfl
  | cons a d ih => simp [ih]

theorem eraseIdx_append_len (d : List Tok) (x : Tok) (m : List Tok) :
    (d ++ x :: m).eraseIdx d.length = d ++ m := by
  induction d with
  | nil => rfl
  | cons a d ih => simpa using ih

theorem insertIdx_append_len (d : List Tok) (y : Tok) (m : List Tok) :
    (d ++ m).insertIdx d.length y = d ++ y :: m := by
  induction d with
  | nil => rfl
  | cons a d ih => simpa [List.insertIdx] using ih

theorem insertIdx_append_len_succ (d : List Tok) (x y : Tok) (m : List Tok) :
    (d ++ x :: m).insertIdx (d.length + 1) y = d ++ x :: y :: m := by
  induction d with
  | nil => rfl
  | cons a d ih => simpa [List.insertIdx] using ih

/- Helper lemmas about single iterations of the decode loop. -/

/-- Unfolding of one fueled iteration. -/
theorem runLoop_succ (n : ℕ) (s : LoopState) :
    runLoop (n + 1) s =
      match step s with
      | .done l => .ok l
      | .err e => .err e
      | .cont s2 => runLoop n s2 := rfl

/-- When the index has reached the end of the list the loop exits. -/
theorem step_done (d : List Tok) (bb : Bool) :
    step ⟨d, d.length, bb⟩ = .done d := by
  unfold step
  rw [List.getElem?_eq_none (by simp)]

theorem runLoop_done (n : ℕ) (d : List Tok) (bb : Bool) :
    runLoop (n + 1) ⟨d, d.length, bb⟩ = .ok d := by
  rw [runLoop_succ, step_done]

/-- A clean token at the working index is converted in place and the index
advances by one. -/
theorem step_clean (d m : List Tok) (t : List Char) (f : ℤ × ℤ) (bb : Bool)
    (hlen : t.length ≤ 14) (hp : parseFloat? t = some f) :
    step ⟨d ++ .raw t :: m, d.length, bb⟩ = .cont ⟨d ++ .num f :: m, d.length + 1, bb⟩ := by
  unfold step
  rw [getElem?_append_len]
  simp only [Nat.not_lt.mpr hlen, if_false, hp, set_append_len]

/-- A long token at the working index whose two halves both parse is
replaced by the two parsed numbers and the index advances by two. -/
theorem step_glitch (d m : List Tok) (t a b : List Char) (f1 f2 : ℤ × ℤ) (bb : Bool)
    (hlen : 14 < t.length) (hsplit : splitFirstE t = some (a, b))
    (h1 : parseFloat? (a ++ 'e' :: b.take 3) = some f1)
    (h2 : parseFloat? (b.drop 3) = some f2) :
    step ⟨d ++ .raw t :: m, d.length, bb⟩ =
      .cont ⟨d ++ .num f1 :: .num f2 :: m, d.length + 2, true⟩ := by
  unfold step
  rw [getElem?_append_len]
  simp only [hlen, if_true, hsplit, eraseIdx_append_len, h1, insertIdx_append_len, h2,
    insertIdx_append_len_succ]

/-- Running the loop over a block of clean tokens converts them one per
iteration, consuming exactly one unit of fuel each. -/
theorem runLoop_clean_chunk (p : List (List Char)) :
    ∀ (r : List (List Char)) (d : List Tok) (n : ℕ) (bb : Bool),
      (∀ t ∈ p, cleanTok t) →
      runLoop (p.length + n) ⟨d ++ (p ++ r).map Tok.raw, d.length, bb⟩ =
        runLoop n ⟨d ++ p.map convTok ++ r.map Tok.raw, d.length + p.length, bb⟩ := by
  induction p with
  | nil => intro r d n bb _; simp
  | cons t p ih =>
    intro r d n bb hc
    obtain ⟨hlen, hsome⟩ := hc t (by simp)
    obtain ⟨f, hf⟩ := Option.isSome_iff_exists.mp hsome
    have hconv : convTok t = .num f := by simp [convTok, hf]
    have hstep := step_clean d ((p ++ r).map Tok.raw) t f bb hlen hf
    have hfuel : (t :: p).length + n = (p.length + n) + 1 := by
      simp [Nat.add_comm, Nat.add_assoc, Nat.add_left_comm]
    rw [hfuel, runLoop_succ]
    simp only [List.map_cons, List.cons_append] at hstep ⊢
    rw [hstep]
    have := ih r (d ++ [.num f]) n bb (fun u hu => hc u (by simp [hu]))
    simp only [List.append_assoc, List.singleton_append, List.length_append,
      List.length_singleton] at this
    rw [show d.length + 1 = d.length + 1 from rfl]
    simpa [hconv, Nat.add_comm, Nat.add_assoc, Nat.add_left_comm] using this

/-- A state the step function maps to itself keeps the loop running out of
any amount of fuel: the Python loop never terminates from it. -/
theorem stuck_forever (s : LoopState) (h : step s = .cont s) :
    ∀ n, runLoop n s = .outOfFuel := by
  intro n
  induction n with
  | zero => rfl
  | succ n ih => rw [runLoop_succ, h]; exact ih

/-- C1: a token longer than 14 characters is repaired by splitting at the
first exponent marker: everything up to a 3 character exponent suffix is
the first number, the remainder the second, and both parsed floats replace
the one token in place (the working index then skips both).  In
particular, the stream
"1.0,2.0,1.234567890123e-051.987654321098e-04,3.0" decodes to five
samples whose 2nd and 3rd values are 1.234567890123e-05 and
1.987654321098e-04. -/
theorem c1_glitch_repair :
    (∀ (d m : List Tok) (t a b : List Char) (f1 f2 : ℤ × ℤ) (bb : Bool),
        14 < t.length → splitFirstE t = some (a, b) →
        parseFloat? (a ++ 'e' :: b.take 3) = some f1 →
        parseFloat? (b.drop 3) = some f2 →
        step ⟨d ++ .raw t :: m, d.length, bb⟩ =
          .cont ⟨d ++ .num f1 :: .num f2 :: m, d.length + 2, true⟩)
    ∧ (decodeStream "1.0,2.0,1.234567890123e-051.987654321098e-04,3.0".toList).valList =
        some [1, 2, 1234567890123 / 10 ^ 17, 1987654321098 / 10 ^ 16, 3] := by
  refine ⟨fun d m t a b f1 f2 bb hlen hsplit h1 h2 =>
    step_glitch d m t a b f1 f2 bb hlen hsplit h1 h2, ?_⟩
  have h : decodeStream "1.0,2.0,1.234567890123e-051.987654321098e-04,3.0".toList =
      .ok [.num (10, -1), .num (20, -1), .num (1234567890123, -17),
        .num (1987654321098, -16), .num (30, -1)] := by decide
  rw [h]
  simp only [DecodeOutcome.valList, List.map_cons, List.map_nil, Tok.val, qOf,
    Option.some.injEq]
  norm_num

/-- Witness for C1: the concrete glitch token is repaired by one step. -/
theorem c1_glitch_repair_witness :
    step ⟨[Tok.raw "1.234567890123e-051.987654321098e-04".toList], 0, false⟩ =
      .cont ⟨[Tok.num (1234567890123, -17), Tok.num (1987654321098, -16)], 2, true⟩ :=
  c1_glitch_repair.1 [] [] "1.234567890123e-051.987654321098e-04".toList
    "1.234567890123".toList "-051.987654321098e-04".toList (1234567890123, -17)
    (1987654321098, -16) false (by decide) (by decide) (by decide) (by decide)

/-- C2 (code bug): when the very last token fails to parse, the except
handler neither drops it nor advances the index, so the while loop keeps
re-executing the same failing parse forever and decoding never completes:
on the stream "1.0,xyz" the loop state reached after the first token is a
fixed point of the loop body, and no amount of fuel finishes.  Moreover, a
parse failure on a non-final token does not raise the ProtocolViolation
with the offending token: formatting its message references first_num and
second_num, which are unbound unless a repair branch ran before, raising
UnboundLocalError instead ("bad,1.0"). -/
theorem c2_final_token_nontermination :
    (∀ n, runLoop n ⟨[Tok.raw "1.0".toList, Tok.raw "xyz".toList], 0, false⟩ = .outOfFuel)
    ∧ decodeStream "1.0,xyz".toList = .outOfFuel
    ∧ decodeStream "bad,1.0".toList = .err .nameError := by
  refine ⟨?_, by decide, by decide⟩
  have h1 : step ⟨[Tok.raw "1.0".toList, Tok.raw "xyz".toList], 0, false⟩ =
      .cont ⟨[Tok.num (10, -1), Tok.raw "xyz".toList], 1, false⟩ := by decide
  have h2 : step ⟨[Tok.num (10, -1), Tok.raw "xyz".toList], 1, false⟩ =
      .cont ⟨[Tok.num (10, -1), Tok.raw "xyz".toList], 1, false⟩ := by decide
  intro n
  cases n with
  | zero => rfl
  | succ n =>
    rw [runLoop_succ, h1]
    exact stuck_forever _ h2 n

/-- C3: on a token list where every token is clean (parses directly, at
most 14 characters) decoding succeeds with exactly one sample per token,
each the parse of its token; with exactly one glitched concatenation token
among clean tokens, decoding succeeds with exactly one extra sample, the
glitch replaced by its two parsed halves and every other sample unchanged
in order. -/
theorem c3_length_preservation :
    (∀ toks : List (List Char), (∀ t ∈ toks, cleanTok t) →
      decodeTokens toks = .ok (toks.map convTok) ∧
        (toks.map convTok).length = toks.length)
    ∧ (∀ (pre post : List (List Char)) (g a b : List Char) (f1 f2 : ℤ × ℤ),
        (∀ t ∈ pre, cleanTok t) → (∀ t ∈ post, cleanTok t) →
        14 < g.length → splitFirstE g = some (a, b) →
        parseFloat? (a ++ 'e' :: b.take 3) = some f1 →
        parseFloat? (b.drop 3) = some f2 →
        decodeTokens (pre ++ g :: post) =
          .ok (pre.map convTok ++ .num f1 :: .num f2 :: post.map convTok) ∧
          (pre.map convTok ++ .num f1 :: .num f2 :: post.map convTok).length =
            (pre ++ g :: post).length + 1) := by
  constructor
  · intro toks hc
    refine ⟨?_, by simp⟩
    unfold decodeTokens
    have h := runLoop_clean_chunk toks [] [] 1 false hc
    simp only [List.append_nil, List.nil_append, List.length_nil, Nat.zero_add] at h
    rw [h]
    have hd := runLoop_done 0 (toks.map convTok) false
    simpa using hd
  · intro pre post g a b f1 f2 hpre hpost hglen hsplit h1 h2
    refine ⟨?_, by simp [Nat.add_comm, Nat.add_assoc, Nat.add_left_comm]⟩
    unfold decodeTokens
    have hfuel : (pre ++ g :: post).length + 1 = pre.length + (post.length + 2) := by
      simp [Nat.add_comm, Nat.add_assoc, Nat.add_left_comm]
    rw [hfuel]
    have hchunk1 := runLoop_clean_chunk pre (g :: post) [] (post.length + 2) false hpre
    simp only [List.nil_append, List.length_nil, Nat.zero_add] at hchunk1
    rw [hchunk1]
    rw [show post.length + 2 = (post.length + 1) + 1 from rfl, runLoop_succ]
    have hstep := step_glitch (pre.map convTok) (post.map Tok.raw) g a b f1 f2 false
      hglen hsplit h1 h2
    rw [List.length_map] at hstep
    simp only [List.map_cons] at hstep ⊢
    rw [hstep]
    have hchunk2 := runLoop_clean_chunk post [] (pre.map convTok ++ [.num f1, .num f2])
      1 true hpost
    simp only [List.append_nil, List.append_assoc, List.cons_append, List.singleton_append,
      List.nil_append, List.length_append, List.length_map, List.length_cons,
      List.length_nil] at hchunk2
    rw [show pre.length + 2 = pre.length + (0 + 1 + 1) by ring] at hstep ⊢
    show runLoop (post.length + 1)
        ⟨pre.map convTok ++ Tok.num f1 :: Tok.num f2 :: post.map Tok.raw,
          pre.length + (0 + 1 + 1), true⟩ =
      DecodeOutcome.ok (pre.map convTok ++ Tok.num f1 :: Tok.num f2 :: post.map convTok)
    rw [hchunk2]
    have hd := runLoop_done 0 (pre.map convTok ++ .num f1 :: .num f2 :: post.map convTok) true
    simp only [List.length_append, List.length_map, List.length_cons] at hd
    simpa [List.append_nil, Nat.add_comm, Nat.add_assoc, Nat.add_left_comm] using hd

/-- Witness for C3: a clean two token list decodes one sample per token,
and a clean token followed by the concrete glitch token decodes to three
samples. -/
theorem c3_length_preservation_witness :
    decodeTokens ["1.0".toList, "2.0".toList] = .ok [Tok.num (10, -1), Tok.num (20, -1)] ∧
      decodeTokens ["1.0".toList, "1.234567890123e-051.987654321098e-04".toList] =
        .ok [Tok.num (10, -1), Tok.num (1234567890123, -17), Tok.num (1987654321098, -16)] := by
  constructor
  · have h := (c3_length_preservation.1 ["1.0".toList, "2.0".toList] (by decide)).1
    rw [h]; decide
  · have h := (c3_length_preservation.2 ["1.0".toList] []
      "1.234567890123e-051.987654321098e-04".toList "1.234567890123".toList
      "-051.987654321098e-04".toList (1234567890123, -17) (1987654321098, -16)
      (by decide) (by decide) (by decide) (by decide) (by decide) (by decide)).1
    simp only [List.singleton_append] at h
    rw [h]; decide

/-- C4 counterexample: the claim says a field that fails its integer or
floating point parse makes preamble decoding fail with a
ProtocolViolation; on the concrete preamble whose third field is the
unparseable "x" the code raises the uncaught ValueError of `int("x")`
instead, which is not the ProtocolViolation exception. -/
theorem c4_parse_failure_is_value_error :
    parseInt? "x".toList = none ∧
      parsePreamble "2,0,x,1,1e-6,-6e-4,0,1,0,0".toList = .error .valueError ∧
      PreErr.valueError ≠ PreErr.protocolViolation := by
  refine ⟨by decide, ?_, by decide⟩
  rfl

/-- C4 (amended): preamble decoding parses the comma separated reply into
its 10 typed fields (the scenario "2,0,1200,1,1e-6,-6e-4,0,1,0,0" yields
format 2, type 0, 1200 points, xinc 1e-6, xorigin -6e-4); it fails with a
ProtocolViolation exactly when the field count is not 10, field 0 parses
to an integer other than 2, or field 1 parses to an integer that is
neither 0 nor 2; a field that fails its integer or floating point parse
(the first such field in source order) instead raises the plain
ValueError of the uncaught int()/float() call. -/
theorem c4_preamble_decode :
    (parsePreamble "2,0,1200,1,1e-6,-6e-4,0,1,0,0".toList =
      .ok ⟨2, 0, 1200, 1, 1 / 1000000, -(6 / 10000), 0, 1, 0, 0⟩)
    ∧ (∀ s : List Char, (splitComma s).length ≠ 10 →
        parsePreamble s = .error .protocolViolation)
    ∧ (∀ s p0 p1 p2 p3 p4 p5 p6 p7 p8 p9,
        splitComma s = [p0, p1, p2, p3, p4, p5, p6, p7, p8, p9] →
        ((∀ k, parseInt? p0 = some k → k ≠ 2 →
            parsePreamble s = .error .protocolViolation)
          ∧ (∀ k, parseInt? p0 = some 2 → parseInt? p1 = some k → k ≠ 0 → k ≠ 2 →
            parsePreamble s = .error .protocolViolation)
          ∧ (parseInt? p0 = none → parsePreamble s = .error .valueError)
          ∧ (parseInt? p0 = some 2 → parseInt? p1 = none →
            parsePreamble s = .error .valueError)
          ∧ (∀ k1, parseInt? p0 = some 2 → parseInt? p1 = some k1 →
              (k1 = 0 ∨ k1 = 2) →
              ((parseInt? p2 = none → parsePreamble s = .error .valueError)
                ∧ (∀ pts, parseInt? p2 = some pts →
                  (parseInt? p3 = none → parsePreamble s = .error .valueError)
                  ∧ (∀ avg, parseInt? p3 = some avg →
                    (parseFloat? p4 = none → parsePreamble s = .error .valueError)
                    ∧ (∀ x4, parseFloat? p4 = some x4 →
                      (parseFloat? p5 = none → parsePreamble s = .error .valueError)
                      ∧ (∀ x5, parseFloat? p5 = some x5 →
                        (parseFloat? p6 = none → parsePreamble s = .error .valueError)
                        ∧ (∀ x6, parseFloat? p6 = some x6 →
                          (parseFloat? p7 = none → parsePreamble s = .error .valueError)
                          ∧ (∀ x7, parseFloat? p7 = some x7 →
                            (parseFloat? p8 = none → parsePreamble s = .error .valueError)
                            ∧ (∀ x8, parseFloat? p8 = some x8 →
                              (parseFloat? p9 = none → parsePreamble s = .error .valueError)
                              ∧ (∀ x9, parseFloat? p9 = some x9 →
                                parsePreamble s = .ok ⟨2, k1, pts, avg, qOf x4, qOf x5,
                                  qOf x6, qOf x7, qOf x8, qOf x9⟩)))))))))))) := by
  refine ⟨?_, ?_, ?_⟩
  · have h0 : parsePreamble "2,0,1200,1,1e-6,-6e-4,0,1,0,0".toList =
        .ok ⟨2, 0, 1200, 1, qOf (1, -6), qOf (-6, -4), qOf (0, 0), qOf (1, 0),
          qOf (0, 0), qOf (0, 0)⟩ := by rfl
    rw [h0]
    simp only [Except.ok.injEq, Preamble.mk.injEq, qOf]
    norm_num
  · intro s hlen
    unfold parsePreamble
    split
    · rename_i heq
      rw [heq] at hlen
      simp at hlen
    · rfl
  · intro s p0 p1 p2 p3 p4 p5 p6 p7 p8 p9 hsplit
    have hP : parsePreamble s = parsePre10 p0 p1 p2 p3 p4 p5 p6 p7 p8 p9 := by
      unfold parsePreamble
      rw [hsplit]
    refine ⟨?_, ?_, ?_, ?_, ?_⟩
    · intro k hk hne
      rw [hP]
      unfold parsePre10
      rw [hk]
      simp [hne]
    · intro k h0 h1 hne0 hne2
      rw [hP]
      unfold parsePre10
      rw [h0, h1]
      simp [hne0, hne2]
    · intro h0
      rw [hP]
      unfold parsePre10
      rw [h0]
    · intro h0 h1
      rw [hP]
      unfold parsePre10
      rw [h0, h1]
      simp
    · intro k1 h0 h1 hk1
      have hk1ne : ¬ (k1 ≠ 0 ∧ k1 ≠ 2) := by
        rcases hk1 with rfl | rfl <;> simp
      have hP10 : parsePreamble s =
          (match parseInt? p2 with
            | none => .error .valueError
            | some points =>
              match parseInt? p3 with
              | none => .error .valueError
              | some avgcount =>
                match parseFloat? p4 with
                | none => .error .valueError
                | some xinc =>
                  match parseFloat? p5 with
                  | none => .error .valueError
                  | some xorigin =>
                    match parseFloat? p6 with
                    | none => .error .valueError
                    | some xref =>
                      match parseFloat? p7 with
                      | none => .error .valueError
                      | some yinc =>
                        match parseFloat? p8 with
                        | none => .error .valueError
                        | some yorigin =>
                          match parseFloat? p9 with
                          | none => .error .valueError
                          | some yref =>
                            .ok ⟨2, k1, points, avgcount, qOf xinc, qOf xorigin,
                              qOf xref, qOf yinc, qOf yorigin, qOf yref⟩) := by
        rw [hP]
        unfold parsePre10
        rw [h0, h1]
        simp [hk1ne]
      refine ⟨by intro h2; rw [hP10, h2], ?_⟩
      intro pts h2
      rw [h2] at hP10
      refine ⟨by intro h3; rw [hP10, h3], ?_⟩
      intro avg h3
      rw [h3] at hP10
      refine ⟨by intro h4; rw [hP10, h4], ?_⟩
      intro x4 h4
      rw [h4] at hP10
      refine ⟨by intro h5; rw [hP10, h5], ?_⟩
      intro x5 h5
      rw [h5] at hP10
      refine ⟨by intro h6; rw [hP10, h6], ?_⟩
      intro x6 h6
      rw [h6] at hP10
      refine ⟨by intro h7; rw [hP10, h7], ?_⟩
      intro x7 h7
      rw [h7] at hP10
      refine ⟨by intro h8; rw [hP10, h8], ?_⟩
      intro x8 h8
      rw [h8] at hP10
      refine ⟨by intro h9; rw [hP10, h9], ?_⟩
      intro x9 h9
      rw [h9] at hP10
      exact hP10

/-- Witness for C4: the wrong field count case and the first failure case
each applied at a concrete preamble string. -/
theorem c4_preamble_decode_witness :
    parsePreamble "1,2".toList = .error .protocolViolation ∧
      parsePreamble "2,0,1200,abc,1e-6,-6e-4,0,1,0,0".toList = .error .valueError := by
  constructor
  · exact c4_preamble_decode.2.1 "1,2".toList (by decide)
  · have h := (c4_preamble_decode.2.2 "2,0,1200,abc,1e-6,-6e-4,0,1,0,0".toList
      "2".toList "0".toList "1200".toList "abc".toList "1e-6".toList "-6e-4".toList
      "0".toList "1".toList "0".toList "0".toList (by decide)).2.2.2.2
    have h2 := ((h 0 (by decide) (by decide) (Or.inl rfl)).2 1200 (by decide)).1
    exact h2 (by decide)

/- Helper lemmas about the scale selection fold. -/

/-- The fold either keeps its initial value or lands on a list element
strictly below the bound. -/
theorem pickAux_mem (n : ℚ) (L : List ℚ) :
    ∀ init : ℚ, L.foldl (fun acc t => if t < n then t else acc) init = init ∨
      (L.foldl (fun acc t => if t < n then t else acc) init ∈ L ∧
        L.foldl (fun acc t => if t < n then t else acc) init < n) := by
  induction L with
  | nil => intro init; exact Or.inl rfl
  | cons a L ih =>
    intro init
    simp only [List.foldl_cons]
    by_cases ha : a < n
    · rw [if_pos ha]
      rcases ih a with h | ⟨hm, hlt⟩
      · exact Or.inr ⟨by rw [h]; simp, by rw [h]; exact ha⟩
      · exact Or.inr ⟨by simp [hm], hlt⟩
    · rw [if_neg ha]
      rcases ih init with h | ⟨hm, hlt⟩
      · exact Or.inl h
      · exact Or.inr ⟨by simp [hm], hlt⟩

/-- On an ascending list, every element strictly below the bound is at most
the fold result: the fold keeps the largest such element. -/
theorem pickAux_ub (n : ℚ) (L : List ℚ) :
    ∀ init : ℚ, L.Pairwise (· ≤ ·) →
      ∀ s ∈ L, s < n → s ≤ L.foldl (fun acc t => if t < n then t else acc) init := by
  induction L with
  | nil => intro init _ s hs; simp at hs
  | cons a L ih =>
    intro init hpw s hs hsn
    have hpw2 := List.pairwise_cons.mp hpw
    simp only [List.foldl_cons]
    rcases List.mem_cons.mp hs with rfl | hsL
    · rw [if_pos hsn]
      rcases pickAux_mem n L s with h | ⟨hm, _⟩
      · rw [h]
      · exact hpw2.1 _ hm
    · by_cases ha : a < n
      · rw [if_pos ha]; exact ih a hpw2.2 s hsL hsn
      · rw [if_neg ha]; exact ih init hpw2.2 s hsL hsn

/-- When some list element is strictly below the bound, the fold result is
a list element strictly below the bound. -/
theorem pickAux_exists (n : ℚ) (L : List ℚ) :
    ∀ init : ℚ, (∃ s ∈ L, s < n) →
      L.foldl (fun acc t => if t < n then t else acc) init ∈ L ∧
        L.foldl (fun acc t => if t < n then t else acc) init < n := by
  induction L with
  | nil => intro init h; simp at h
  | cons a L ih =>
    intro init h
    obtain ⟨s, hs, hsn⟩ := h
    simp only [List.foldl_cons]
    by_cases ha : a < n
    · rw [if_pos ha]
      rcases pickAux_mem n L a with h | ⟨hm, hlt⟩
      · rw [h]; exact ⟨by simp, ha⟩
      · exact ⟨by simp [hm], hlt⟩
    · rw [if_neg ha]
      rcases List.mem_cons.mp hs with rfl | hsL
      · exact absurd hsn ha
      · have hh := ih init ⟨s, hsL, hsn⟩
        exact ⟨by simp [hh.1], hh.2⟩

/-- When no list element is strictly below the bound, the fold keeps its
initial value. -/
theorem pickAux_none (n : ℚ) (L : List ℚ) :
    ∀ init : ℚ, (∀ s ∈ L, ¬ s < n) →
      L.foldl (fun acc t => if t < n then t else acc) init = init := by
  induction L with
  | nil => intro _ _; rfl
  | cons a L ih =>
    intro init h
    simp only [List.foldl_cons, if_neg (h a (by simp))]
    exact ih init (fun s hs => h s (by simp [hs]))

/-- The setable scale list is ascending. -/
theorem setableScales_ascending : setableScales.Pairwise (· ≤ ·) := by
  norm_num [setableScales, List.pairwise_cons]

/-- The fold sentinel 0 is not itself a setable scale. -/
theorem zero_not_setable : (0 : ℚ) ∉ setableScales := by
  norm_num [setableScales]

/-- C5: the scale resolver divides the requested scale by the probe ratio
and selects the largest setable step strictly less than the normalized
value (so a value exactly equal to a step resolves to the next lower
step), and fails with the range error exactly when no step lies strictly
below the normalized value; in particular probe ratio 10 with desired
scale 0.03 issues scale 0.002, and a normalized value exactly equal to the
step 0.002 resolves to 0.001. -/
theorem c5_scale_resolution :
    (∀ scale ratio m : ℚ, resolveScale scale ratio = some m →
      m ∈ setableScales ∧ m < scale / ratio ∧
        ∀ s ∈ setableScales, s < scale / ratio → s ≤ m)
    ∧ (∀ scale ratio : ℚ, resolveScale scale ratio = none ↔
        ∀ s ∈ setableScales, ¬ s < scale / ratio)
    ∧ resolveScale (3 / 100) 10 = some (1 / 500)
    ∧ resolveScale (1 / 500) 1 = some (1 / 1000) := by
  have hchar : ∀ scale ratio : ℚ, resolveScale scale ratio =
      (if pickScale (scale / ratio) ∈ setableScales
        then some (pickScale (scale / ratio)) else none) := by
    intro scale ratio; rfl
  refine ⟨?_, ?_, ?_, ?_⟩
  · intro scale ratio m h
    rw [hchar] at h
    by_cases hmem : pickScale (scale / ratio) ∈ setableScales
    · rw [if_pos hmem] at h
      obtain rfl : pickScale (scale / ratio) = m := by exact Option.some.inj h
      refine ⟨hmem, ?_, ?_⟩
      · rcases pickAux_mem (scale / ratio) setableScales 0 with h0 | ⟨_, hlt⟩
        · rw [pickScale] at hmem
          rw [h0] at hmem
          exact absurd hmem zero_not_setable
        · exact hlt
      · intro s hs hsn
        exact pickAux_ub (scale / ratio) setableScales 0 setableScales_ascending s hs hsn
    · rw [if_neg hmem] at h
      exact absurd h (by simp)
  · intro scale ratio
    rw [hchar]
    constructor
    · intro h
      by_cases hmem : pickScale (scale / ratio) ∈ setableScales
      · rw [if_pos hmem] at h; exact absurd h (by simp)
      · intro s hs hsn
        exact hmem ((pickAux_exists (scale / ratio) setableScales 0 ⟨s, hs, hsn⟩).1)
    · intro h
      have h0 : pickScale (scale / ratio) = 0 :=
        pickAux_none (scale / ratio) setableScales 0 h
      rw [if_neg (by rw [h0]; exact zero_not_setable)]
  · norm_num [resolveScale, pickScale, setableScales]
  · norm_num [resolveScale, pickScale, setableScales]

/-- Witness for C5: the selection soundness applied at the scenario input
(probe ratio 10, desired scale 0.03, issued step 0.002). -/
theorem c5_scale_resolution_witness :
    (1 / 500 : ℚ) ∈ setableScales ∧ (1 / 500 : ℚ) < 3 / 100 / 10 ∧
      ∀ s ∈ setableScales, s < 3 / 100 / 10 → s ≤ 1 / 500 :=
  c5_scale_resolution.1 (3 / 100) 10 (1 / 500)
    (by norm_num [resolveScale, pickScale, setableScales])

/- Helper lemmas about the stability gated loop. -/

theorem stabilityGo_eq (r1 r2 : ℚ) (ps : List (ℚ × ℚ)) :
    stabilityGo r1 r2 ps =
      if rejectCond r1 r2 then
        match ps with
        | [] => none
        | (a, b) :: rest => stabilityGo a b rest
      else some ((r1 + r2) / 2) := by
  rw [stabilityGo.eq_def]

theorem stabilityGo_reject (r1 r2 : ℚ) (h : rejectCond r1 r2) (a b : ℚ)
    (rest : List (ℚ × ℚ)) :
    stabilityGo r1 r2 ((a, b) :: rest) = stabilityGo a b rest := by
  rw [stabilityGo_eq, if_pos h]

theorem stabilityGo_reject_nil (r1 r2 : ℚ) (h : rejectCond r1 r2) :
    stabilityGo r1 r2 [] = none := by
  rw [stabilityGo_eq, if_pos h]

theorem stabilityGo_accept (r1 r2 : ℚ) (h : ¬ rejectCond r1 r2)
    (ps : List (ℚ × ℚ)) :
    stabilityGo r1 r2 ps = some ((r1 + r2) / 2) := by
  rw [stabilityGo_eq, if_neg h]

/-- The initial loop state (resp1 = 0, resp2 = 1) is always rejected, so
the loop always consumes at least one pair of readings. -/
theorem rejectCond_init : rejectCond 0 1 := by
  refine Or.inr (Or.inr ?_)
  rw [show |(0:ℚ)| = 0 from abs_of_nonneg (by norm_num),
    show |(1:ℚ)| = 1 from abs_of_nonneg (by norm_num)]
  norm_num

/-- C6 counterexample: the claim requires that a pair is accepted only
when neither reading is at or above the sentinel 9.9e37; the code only
compares the first reading against the sentinel, so the pair
(9.0e37, 9.9e37), whose second reading is exactly the sentinel, passes
the condition and is accepted, returning the average 9.45e37. -/
theorem c6_sentinel_only_first_checked :
    ¬ rejectCond (9 * 10 ^ 37) (99 * 10 ^ 36) ∧ sentinel ≤ 99 * 10 ^ 36 ∧
      stabilityRun [(9 * 10 ^ 37, 99 * 10 ^ 36)] = some (945 * 10 ^ 35) := by
  have habs1 : |(9 * 10 ^ 37 : ℚ)| = 9 * 10 ^ 37 := abs_of_nonneg (by norm_num)
  have habs2 : |(99 * 10 ^ 36 : ℚ)| = 99 * 10 ^ 36 := abs_of_nonneg (by norm_num)
  have hacc : ¬ rejectCond (9 * 10 ^ 37) (99 * 10 ^ 36) := by
    rw [rejectCond, habs1, habs2]
    push_neg
    refine ⟨by norm_num [sentinel], by norm_num, by norm_num⟩
  refine ⟨hacc, by norm_num [sentinel], ?_⟩
  rw [stabilityRun, stabilityGo_reject 0 1 rejectCond_init, stabilityGo_accept _ _ hacc]
  norm_num

/-- C6 (amended): for phase type measurements each iteration issues the
scalar query twice and accepts the pair exactly when the first reading is
below the out of range sentinel 9.9e37 and the magnitudes of the two
readings are within the one sided 10 percent band around the second
reading (only the first reading is compared against the sentinel);
on acceptance the average of the pair is returned, otherwise the loop
repeats with two fresh readings.  The pair (5.00, 5.02) is accepted,
returning 5.01; the pair (5.00, 9.9e37) is rejected (by the tolerance
check) and the loop repeats. -/
theorem c6_stability_sampler :
    (∀ r1 r2 : ℚ, ¬ rejectCond r1 r2 ↔
      r1 < sentinel ∧ |r1| ≤ |r2| * (11/10) ∧ |r2| * (9/10) ≤ |r1|)
    ∧ (∀ (r1 r2 : ℚ) (ps : List (ℚ × ℚ)), ¬ rejectCond r1 r2 →
        stabilityRun ((r1, r2) :: ps) = some ((r1 + r2) / 2))
    ∧ (∀ (r1 r2 : ℚ) (ps : List (ℚ × ℚ)), rejectCond r1 r2 →
        stabilityRun ((r1, r2) :: ps) = stabilityRun ps)
    ∧ stabilityRun [(5, 502/100)] = some (501/100)
    ∧ rejectCond 5 sentinel
    ∧ stabilityRun [(5, sentinel), (5, 502/100)] = some (501/100) := by
  have habs5 : |(5:ℚ)| = 5 := abs_of_nonneg (by norm_num)
  have habs502 : |(502/100:ℚ)| = 502/100 := abs_of_nonneg (by norm_num)
  have habsSen : |sentinel| = sentinel := abs_of_nonneg (by norm_num [sentinel])
  have hacc502 : ¬ rejectCond 5 (502/100) := by
    rw [rejectCond, habs5, habs502]
    push_neg
    refine ⟨by norm_num [sentinel], by norm_num, by norm_num⟩
  have hrejSen : rejectCond 5 sentinel := by
    refine Or.inr (Or.inr ?_)
    rw [habs5, habsSen]
    norm_num [sentinel]
  refine ⟨?_, ?_, ?_, ?_, hrejSen, ?_⟩
  · intro r1 r2
    rw [rejectCond, not_or, not_or, not_le, not_lt, not_lt]
  · intro r1 r2 ps hacc
    rw [stabilityRun, stabilityGo_reject 0 1 rejectCond_init, stabilityGo_accept _ _ hacc]
  · intro r1 r2 ps hrej
    cases ps with
    | nil =>
      rw [stabilityRun, stabilityGo_reject 0 1 rejectCond_init,
        stabilityGo_reject_nil _ _ hrej, stabilityRun, stabilityGo_reject_nil 0 1 rejectCond_init]
    | cons p rest =>
      obtain ⟨a, b⟩ := p
      rw [stabilityRun, stabilityGo_reject 0 1 rejectCond_init,
        stabilityGo_reject _ _ hrej, stabilityRun, stabilityGo_reject 0 1 rejectCond_init]
  · rw [stabilityRun, stabilityGo_reject 0 1 rejectCond_init,
      stabilityGo_accept _ _ hacc502]
    norm_num
  · rw [stabilityRun, stabilityGo_reject 0 1 rejectCond_init,
      stabilityGo_reject _ _ hrejSen, stabilityGo_accept _ _ hacc502]
    norm_num

/-- Witness for C6: the acceptance branch applied at the scenario pair
(5.00, 5.02), returning the average. -/
theorem c6_stability_sampler_witness :
    stabilityRun [((5 : ℚ), 502/100)] = some ((5 + 502/100) / 2) :=
  c6_stability_sampler.2.1 5 (502/100) [] (by
    rw [rejectCond, show |(5:ℚ)| = 5 from abs_of_nonneg (by norm_num),
      show |(502/100:ℚ)| = 502/100 from abs_of_nonneg (by norm_num)]
    push_neg
    refine ⟨by norm_num [sentinel], by norm_num, by norm_num⟩)

/-- C7: a raw mode capture with the instrument not stopped fails with a
protocol violation having issued only the run state query and no waveform
configuration command; every capture that passes the precondition issues
the configuration in the fixed order mode, point count, source channel,
format, then the preamble and data queries. -/
theorem c7_capture_order :
    (∀ (cfg : Cfg) (env : Env) (ch : ℤ),
      cfg.rawMode = true → 0 ≤ ch → ch < 4 →
      getRunMode env.runModeReply ≠ some RunMode.stop →
      queryWaveform cfg env ch = ([Op.qry ":TRIG:STAT?"], .error .protocolViolation) ∧
        ∀ s, Op.cmd s ∉ (queryWaveform cfg env ch).1)
    ∧ (∀ (cfg : Cfg) (env : Env) (ch : ℤ),
        0 ≤ ch → ch < 4 →
        (cfg.rawMode = false ∨ getRunMode env.runModeReply = some RunMode.stop) →
        (queryWaveform cfg env ch).1 =
          (if cfg.rawMode then [Op.qry ":TRIG:STAT?"] else []) ++
          [Op.cmd (if cfg.rawMode then ":WAV:MODE RAW" else ":WAV:MODE NORM"),
           Op.cmd (if cfg.rawMode then ":WAV:POIN RAW"
             else ":WAV:POIN " ++ toString cfg.samplePoints ++ " NORM"),
           Op.cmd (":WAV:SOUR CHAN" ++ toString (ch + 1)),
           Op.cmd ":WAV:FORM ASCII", Op.qry ":WAV:PRE?", Op.qry ":WAV:DATA?"]) := by
  constructor
  · intro cfg env ch hraw h0 h4 hne
    have hchan : ¬ (ch < 0 ∨ 4 ≤ ch) := by
      rw [not_or, not_lt, not_le]
      exact ⟨h0, h4⟩
    have hguard : cfg.rawMode = true ∧ getRunMode env.runModeReply ≠ some RunMode.stop :=
      ⟨hraw, hne⟩
    have hops : queryWaveformOps cfg env ch = [Op.qry ":TRIG:STAT?"] := by
      rw [queryWaveformOps, if_neg hchan, if_pos hguard]
    have hres : queryWaveformRes cfg env ch = .error .protocolViolation := by
      rw [queryWaveformRes, if_neg hchan, if_pos hguard]
    refine ⟨?_, ?_⟩
    · rw [queryWaveform, hops, hres]
    · intro s
      rw [queryWaveform]
      simp only [hops]
      simp
  · intro cfg env ch h0 h4 hdis
    have hchan : ¬ (ch < 0 ∨ 4 ≤ ch) := by
      rw [not_or, not_lt, not_le]
      exact ⟨h0, h4⟩
    have hguard : ¬ (cfg.rawMode = true ∧ getRunMode env.runModeReply ≠ some RunMode.stop) := by
      rcases hdis with hf | hs
      · rw [hf]; simp
      · intro hg; exact hg.2 hs
    rw [queryWaveform]
    simp only
    rw [queryWaveformOps, if_neg hchan, if_neg hguard]
    cases hr : cfg.rawMode <;> simp

/-- Witness for C7: both parts applied at concrete configurations (raw
mode while running, and a normal mode capture on channel 0 with 1000
sample points). -/
theorem c7_capture_order_witness :
    queryWaveform ⟨true, 1000, false⟩ ⟨some "RUN".toList, none, none⟩ 0 =
      ([Op.qry ":TRIG:STAT?"], .error .protocolViolation) ∧
    (queryWaveform ⟨false, 1000, false⟩ ⟨none, none, none⟩ 0).1 =
      [Op.cmd ":WAV:MODE NORM", Op.cmd ":WAV:POIN 1000 NORM",
       Op.cmd ":WAV:SOUR CHAN1", Op.cmd ":WAV:FORM ASCII",
       Op.qry ":WAV:PRE?", Op.qry ":WAV:DATA?"] := by
  constructor
  · exact (c7_capture_order.1 ⟨true, 1000, false⟩ ⟨some "RUN".toList, none, none⟩ 0
      rfl (by norm_num) (by norm_num) (by decide)).1
  · exact c7_capture_order.2 ⟨false, 1000, false⟩ ⟨none, none, none⟩ 0
      (by norm_num) (by norm_num) (Or.inl rfl)

/-- C8 (code bug): the non numpy path generates one time value per sample
starting at the x origin and advancing by exactly the x increment; the
numpy path calls linspace up to `xorigin + dpoints * xinc` inclusive, so
its step is `dpoints * xinc / (dpoints - 1)` rather than `xinc`: with
x origin 0, x increment 1 and 2 samples the loop path yields [0, 1] while
the numpy path yields [0, 2], a disagreement of one full increment. -/
theorem c8_time_axis :
    (∀ (x0 inc : ℚ) (n : ℕ),
      xdataLoop x0 inc n = (List.range n).map (fun i : ℕ => x0 + (i : ℚ) * inc))
    ∧ (∀ (x0 inc : ℚ) (n : ℕ), 2 ≤ n →
      linspace x0 (x0 + n * inc) n =
        (List.range n).map (fun i : ℕ => x0 + (i : ℚ) * ((n * inc) / ((n - 1 : ℕ) : ℚ))))
    ∧ xdataLoop 0 1 2 = [0, 1]
    ∧ linspace 0 (0 + (2 : ℕ) * 1) 2 = [0, 2] := by
  have hloop : ∀ (inc : ℚ) (n : ℕ) (cur : ℚ),
      xdataLoopAux cur inc n = (List.range n).map (fun i : ℕ => cur + (i : ℚ) * inc) := by
    intro inc n
    induction n with
    | zero => intro cur; simp [xdataLoopAux]
    | succ n ih =>
      intro cur
      rw [xdataLoopAux, ih (cur + inc), List.range_succ_eq_map]
      simp only [List.map_cons, List.map_map]
      congr 1
      · norm_num
      · refine List.map_congr_left ?_
        intro i _
        simp only [Function.comp_apply]
        push_cast
        ring
  refine ⟨fun x0 inc n => hloop inc n x0, ?_, ?_, ?_⟩
  · intro x0 inc n hn
    rw [linspace, if_neg (by omega), if_neg (by omega)]
    refine List.map_congr_left ?_
    intro i _
    ring_nf
  · rw [xdataLoop, hloop]
    norm_num [List.range_succ]
  · rw [linspace, if_neg (by norm_num), if_neg (by norm_num)]
    norm_num [List.range_succ]

/-- Witness for C8: the numpy path characterization applied at x origin 0,
x increment 1, 2 samples. -/
theorem c8_time_axis_witness :
    linspace 0 (0 + (2 : ℕ) * 1) 2 =
      (List.range 2).map (fun i : ℕ => 0 + (i : ℚ) * (((2 : ℕ) * 1) / (((2 : ℕ) - 1 : ℕ) : ℚ))) :=
  c8_time_axis.2.1 0 1 2 (by norm_num)

/-- C9: calling the multi channel capture with an empty list (or tuple)
of channels never enters the per channel merge loop, so `resp` keeps its
initial value and the call returns None instead of a trace dictionary
with an x entry. -/
theorem c9_empty_channel_list (cfg : Cfg) (envs : ℤ → Env) :
    queryWaveformMulti cfg envs [] = .ok none := rfl

/-- C10: the branch of get_channel_measurement raising the missing channel
ValueError is unreachable: a call with channel None raises the TypeError
of the comparison `channel < 0` first, and any call that reaches the None
check has already compared channel as an integer, so the check is false. -/
theorem c10_missing_channel_unreachable :
    (∀ (ty : String) (rc : Option ℤ) (env : MeasEnv),
      get_channel_measurement ty none rc env = .error .typeErrorNoneCmp)
    ∧ (∀ (ty : String) (ch rc : Option ℤ) (env : MeasEnv),
        get_channel_measurement ty ch rc env ≠ .error .valueErrorMissingChannel) := by
  constructor
  · intro ty rc env; rfl
  · intro ty ch rc env
    cases ch with
    | none => simp [get_channel_measurement]
    | some c =>
      simp only [get_channel_measurement]
      by_cases h1 : c < 0 ∨ 3 < c
      · simp [h1]
      · by_cases h2 : ty ∈ measTypes
        · by_cases h3 : ty = "RRPH" ∨ ty = "FFPH"
          · cases rc with
            | none => simp [h1, h2, h3]
            | some rcv =>
              by_cases h5 : rcv < 0 ∨ 3 < rcv
              · simp [h1, h2, h3, h5]
              · cases hsr : stabilityRun env.pairReplies <;>
                  simp [h1, h2, h3, h5, hsr]
          · cases hq : env.singleReply <;> simp [h1, h2, h3, hq]
        · simp [h1, h2]

/-- Witness for C10: a call with channel None raises the TypeError, and a
concrete valid call does not produce the missing channel ValueError. -/
theorem c10_missing_channel_unreachable_witness :
    get_channel_measurement "VPP" none none ⟨[], none⟩ = .error .typeErrorNoneCmp ∧
      get_channel_measurement "VPP" (some 0) none ⟨[], none⟩ ≠
        .error .valueErrorMissingChannel :=
  ⟨c10_missing_channel_unreachable.1 "VPP" none ⟨[], none⟩,
    c10_missing_channel_unreachable.2 "VPP" (some 0) none ⟨[], none⟩⟩

end PYDHO800
